import Mathlib

/-!
# Qwizzard server — verification of the attempt/scoring/adaptive-quiz core

Shallow embedding of the Qwizzard server's core logic
(`attempt.service.ts`, `quiz.service.ts`, `result.service.ts`,
`openai.service.ts`, and the mongoose schemas), together with theorems
settling the specification claims about it.

Modelling conventions:
* Mongo documents become Lean structures; the database becomes an explicit
  `Store` record of lists, and `findOne` becomes `List.find?` (first match).
* `ObjectId`s are modelled as `Nat`, slugs and user ids as `String`.
* Timestamps are dropped: no claim mentions them and they do not influence
  any branch of the translated code.
* JavaScript exceptions become an error sum type; a service call returns
  the outcome together with the store as it stands when the call ends, so
  that partially-applied writes of a failed call remain visible.
* JavaScript's in-place `Array.prototype.sort` on numbers is modelled by
  `sortInts`, and the mutation it performs on the quiz/attempt documents is
  made explicit in `calculateScore`'s output.
-/

namespace Qwizzard

/-- Attempt lifecycle states (`quiz-attempt.schema.ts`: the `status` enum). -/
inductive AttemptStatus
  | inProgress
  | completed
  | abandoned
deriving DecidableEq, Repr, Inhabited

/-- One quiz question (`Question` in the quiz schema): text, a type tag
(`mcq` / `true-false` / `multiple-correct`), options, the correct option
indices and an explanation. -/
structure Question where
  questionText : String
  questionType : String
  options : List String
  correctAnswers : List Int
  explanation : String
deriving DecidableEq, Repr, Inhabited

/-- A quiz document (`Quiz` in the quiz schema).  `parentQuizId` is present
exactly on adaptive quizzes. -/
structure Quiz where
  id : Nat
  slug : String
  creatorId : String
  topic : String
  difficulty : String
  questionTypes : List String
  numberOfQuestions : Nat
  questions : List Question
  isPublic : Bool
  parentQuizId : Option Nat
deriving DecidableEq, Repr, Inhabited

/-- One stored answer inside an attempt (`Answer` in the attempt schema).
The DTO guarantees `questionIndex ≥ 0`, hence `Nat`; the selected indices
are arbitrary integers (the DTO only checks they are integers). -/
structure Answer where
  questionIndex : Nat
  selectedAnswers : List Int
deriving DecidableEq, Repr, Inhabited

/-- A quiz attempt document (`QuizAttempt` in the attempt schema). -/
structure Attempt where
  id : Nat
  slug : String
  userId : String
  quizId : Nat
  answers : List Answer
  status : AttemptStatus
deriving DecidableEq, Repr, Inhabited

/-- One graded answer inside a result (`ResultAnswer` in the result schema). -/
structure GradedAnswer where
  questionIndex : Nat
  selectedAnswers : List Int
  correctAnswers : List Int
  isCorrect : Bool
deriving DecidableEq, Repr, Inhabited

/-- A quiz result document (`QuizResult` in the result schema).  The schema
declares `isResultPublic` with `default: true`; `percentage` is a pure
function of `score` and `totalQuestions` and carries no extra information,
so it is not replicated here. -/
structure QuizResult where
  id : Nat
  slug : String
  userId : String
  quizId : Nat
  attemptId : Nat
  answers : List GradedAnswer
  score : Nat
  totalQuestions : Nat
  isResultPublic : Bool
deriving DecidableEq, Repr, Inhabited

/-- The persistent store: the three mongo collections plus a counter
supplying fresh `ObjectId`s. -/
structure Store where
  quizzes : List Quiz
  attempts : List Attempt
  results : List QuizResult
  nextId : Nat
deriving DecidableEq, Repr, Inhabited

/-- The error kinds the services throw (`NotFoundException`,
`ForbiddenException`, `BadRequestException`, `InternalServerErrorException`). -/
inductive ServiceError
  | notFound
  | forbidden
  | badRequest
  | internalError
deriving DecidableEq, Repr, Inhabited

/-- `attempt.save()` / `quiz.save()`: replace the document with the same
`_id` in its collection. -/
def Store.saveAttempt (s : Store) (a : Attempt) : Store :=
  { s with attempts := s.attempts.map (fun b => if b.id == a.id then a else b) }

/-- Replace the quiz document with the same `_id`. -/
def Store.saveQuiz (s : Store) (q : Quiz) : Store :=
  { s with quizzes := s.quizzes.map (fun b => if b.id == q.id then q else b) }

/-- `new this.resultModel(...).save()`: insert a new result document. -/
def Store.insertResult (s : Store) (r : QuizResult) : Store :=
  { s with results := s.results ++ [r] }

/-- JavaScript's `array.sort((a, b) => a - b)` on a number array: ascending
numeric sort. -/
def sortInts (l : List Int) : List Int :=
  l.insertionSort (· ≤ ·)

/-! ## `calculateScore` (attempt.service.ts, lines 277–329)

The loop body for question `i`: look up the first stored answer with this
`questionIndex`; if present, sort the question's `correctAnswers` and the
stored `selectedAnswers` in place and compare the sorted lists pointwise
(after a length check, i.e. list equality); an absent answer is graded
with an empty selection and `isCorrect = false`. -/

/-- The `GradedAnswer` the loop pushes for question `i`. -/
def gradeAt (attempt : Attempt) (i : Nat) (q : Question) : GradedAnswer :=
  match attempt.answers.find? (fun a => a.questionIndex == i) with
  | none => { questionIndex := i, selectedAnswers := [],
              correctAnswers := q.correctAnswers, isCorrect := false }
  | some ua =>
    let sortedCorrect := sortInts q.correctAnswers
    let sortedSelected := sortInts ua.selectedAnswers
    { questionIndex := i, selectedAnswers := sortedSelected,
      correctAnswers := sortedCorrect,
      isCorrect := sortedCorrect.length == sortedSelected.length
        && sortedCorrect == sortedSelected }

/-- The scoring loop over `quiz.questions`, starting at index `i`:
accumulated score and pushed graded answers. -/
def gradeLoop (attempt : Attempt) : Nat → List Question → Nat × List GradedAnswer
  | _, [] => (0, [])
  | i, q :: rest =>
    let ga := gradeAt attempt i q
    let tail := gradeLoop attempt (i + 1) rest
    ((if ga.isCorrect then 1 else 0) + tail.1, ga :: tail.2)

/-- The in-place mutation the loop performs on the quiz document: every
question for which a stored answer exists gets its `correctAnswers` array
sorted by `sort((a, b) => a - b)`. -/
def sortQuestionsFrom (attempt : Attempt) : Nat → List Question → List Question
  | _, [] => []
  | i, q :: rest =>
    (if (attempt.answers.find? (fun a => a.questionIndex == i)).isSome
     then { q with correctAnswers := sortInts q.correctAnswers }
     else q) :: sortQuestionsFrom attempt (i + 1) rest

/-- The in-place mutation the loop performs on the attempt document: for
each question index the loop visits, the *first* stored answer
with that index gets its `selectedAnswers` array sorted.  Equivalently: a
stored answer is sorted iff its index is a valid question index and no
earlier stored answer has the same index. -/
def sortStoredFrom (len : Nat) (seen : List Nat) : List Answer → List Answer
  | [] => []
  | a :: rest =>
    (if a.questionIndex < len && !(seen.contains a.questionIndex)
     then { a with selectedAnswers := sortInts a.selectedAnswers }
     else a) :: sortStoredFrom len (a.questionIndex :: seen) rest

/-- Output of `calculateScore`: the returned `score` and `answers`,
together with the quiz and attempt documents as the in-place sorts leave
them. -/
structure ScoreOutput where
  score : Nat
  answers : List GradedAnswer
  quizAfter : Quiz
  attemptAfter : Attempt
deriving DecidableEq, Repr, Inhabited

/-- `calculateScore(quiz, attempt)` (attempt.service.ts, lines 277–329). -/
def calculateScore (quiz : Quiz) (attempt : Attempt) : ScoreOutput :=
  let out := gradeLoop attempt 0 quiz.questions
  { score := out.1
    answers := out.2
    quizAfter := { quiz with questions := sortQuestionsFrom attempt 0 quiz.questions }
    attemptAfter :=
      { attempt with answers := sortStoredFrom quiz.questions.length [] attempt.answers } }

/-! ## Attempt service operations (attempt.service.ts)

Each operation returns its outcome (`Except`) paired with the store as it
stands when the call ends; error paths that happen before any write leave
the store unchanged. -/

/-- `startAttempt(userId, { quizId })` (lines 24–66).  `newSlug` stands for
the value `generateAttemptId()` returns. -/
def startAttempt (s : Store) (userId quizSlug newSlug : String) :
    Except ServiceError Attempt × Store :=
  match s.quizzes.find? (fun q => q.slug == quizSlug) with
  | none => (.error .notFound, s)
  | some quiz =>
    if quiz.creatorId != userId && !quiz.isPublic then
      (.error .forbidden, s)
    else
      match s.attempts.find? (fun a =>
          a.userId == userId && a.quizId == quiz.id
            && a.status == AttemptStatus.inProgress) with
      | some existing => (.ok existing, s)
      | none =>
        let attempt : Attempt :=
          { id := s.nextId, slug := newSlug, userId := userId,
            quizId := quiz.id, answers := [], status := .inProgress }
        (.ok attempt,
         { s with attempts := s.attempts ++ [attempt], nextId := s.nextId + 1 })

/-- The body of `SubmitAnswerDto` (`submit-answer.dto.ts`): `questionIndex`
is a non-negative integer (`@IsInt @Min(0)`), `selectedAnswers` an array of
integers; its `@ArrayNotEmpty` constraint appears as a hypothesis where a
claim needs it. -/
structure SubmitAnswerDto where
  questionIndex : Nat
  selectedAnswers : List Int
deriving DecidableEq, Repr, Inhabited

/-- The upsert in `submitAnswer` (lines 178–195): overwrite the first
stored answer with this `questionIndex`, else push a new record. -/
def upsertAnswer (dto : SubmitAnswerDto) : List Answer → List Answer
  | [] => [{ questionIndex := dto.questionIndex, selectedAnswers := dto.selectedAnswers }]
  | a :: rest =>
    if a.questionIndex == dto.questionIndex then
      { a with selectedAnswers := dto.selectedAnswers } :: rest
    else
      a :: upsertAnswer dto rest

/-- `submitAnswer(attemptSlug, userId, dto)` (lines 143–199). -/
def submitAnswer (s : Store) (attemptSlug userId : String) (dto : SubmitAnswerDto) :
    Except ServiceError Attempt × Store :=
  match s.attempts.find? (fun a => a.slug == attemptSlug) with
  | none => (.error .notFound, s)
  | some attempt =>
    if attempt.userId != userId then
      (.error .forbidden, s)
    else if attempt.status != AttemptStatus.inProgress then
      (.error .badRequest, s)
    else
      match s.quizzes.find? (fun q => q.id == attempt.quizId) with
      | none => (.error .notFound, s)
      | some quiz =>
        if quiz.questions.length ≤ dto.questionIndex then
          (.error .badRequest, s)
        else
          let attempt' := { attempt with answers := upsertAnswer dto attempt.answers }
          (.ok attempt', s.saveAttempt attempt')

/-- `submitAttempt(attemptSlug, userId)` (lines 201–257).  `resultSlug`
stands for the value `generateResultId(quiz.topic)` returns.  The code
first sets the attempt's status to `completed` and saves it, and only then
saves the new result; `failResultSave = true` models the execution in
which that final `result.save()` fails (the thrown storage error surfaces
as a 500). -/
def submitAttempt (s : Store) (attemptSlug userId resultSlug : String)
    (failResultSave : Bool) : Except ServiceError QuizResult × Store :=
  match s.attempts.find? (fun a => a.slug == attemptSlug) with
  | none => (.error .notFound, s)
  | some attempt =>
    if attempt.userId != userId then
      (.error .forbidden, s)
    else if attempt.status != AttemptStatus.inProgress then
      (.error .badRequest, s)
    else
      match s.quizzes.find? (fun q => q.id == attempt.quizId) with
      | none => (.error .notFound, s)
      | some quiz =>
        let scored := calculateScore quiz attempt
        let result : QuizResult :=
          { id := s.nextId, slug := resultSlug, userId := attempt.userId,
            quizId := attempt.quizId, attemptId := attempt.id,
            answers := scored.answers, score := scored.score,
            totalQuestions := quiz.numberOfQuestions,
            isResultPublic := true }
        let completed := { scored.attemptAfter with status := AttemptStatus.completed }
        let s1 := s.saveAttempt completed
        if failResultSave then
          (.error .internalError, s1)
        else
          (.ok result, s1.insertResult result)

/-- `abandonAttempt(attemptSlug, userId)` (lines 259–275): after the
ownership check the status is set to `abandoned` unconditionally — there
is no check of the current status. -/
def abandonAttempt (s : Store) (attemptSlug userId : String) :
    Except ServiceError Unit × Store :=
  match s.attempts.find? (fun a => a.slug == attemptSlug) with
  | none => (.error .notFound, s)
  | some attempt =>
    if attempt.userId != userId then
      (.error .forbidden, s)
    else
      (.ok (), s.saveAttempt { attempt with status := AttemptStatus.abandoned })

/-! ## Quiz service operations (quiz.service.ts) -/

/-- `updateQuiz(quizSlug, userId, dto)` (lines 433–455): after the creator
check, `isPublic` is overwritten whenever the DTO carries it — with no
check of `parentQuizId`. -/
def updateQuiz (s : Store) (quizSlug userId : String) (dtoIsPublic : Option Bool) :
    Except ServiceError Quiz × Store :=
  match s.quizzes.find? (fun q => q.slug == quizSlug) with
  | none => (.error .notFound, s)
  | some quiz =>
    if quiz.creatorId != userId then
      (.error .forbidden, s)
    else
      let quiz' :=
        match dtoIsPublic with
        | some b => { quiz with isPublic := b }
        | none => quiz
      (.ok quiz', s.saveQuiz quiz')

/-- `toggleVisibility(quizSlug, userId)` (lines 472–491): rejects quizzes
that have a `parentQuizId` ("Adaptive quizzes cannot be made public"),
then flips `isPublic`. -/
def toggleVisibility (s : Store) (quizSlug userId : String) :
    Except ServiceError Quiz × Store :=
  match s.quizzes.find? (fun q => q.slug == quizSlug) with
  | none => (.error .notFound, s)
  | some quiz =>
    if quiz.creatorId != userId then
      (.error .forbidden, s)
    else if quiz.parentQuizId.isSome then
      (.error .badRequest, s)
    else
      let quiz' := { quiz with isPublic := !quiz.isPublic }
      (.ok quiz', s.saveQuiz quiz')

/-- The adaptive quiz document `generateAdaptiveQuiz` constructs and saves
(quiz.service.ts, lines 204–222): always `isPublic := false`, and the
parent chain is collapsed to the root
(`originalQuiz.parentQuizId || originalQuiz._id`). -/
def mkAdaptiveQuiz (s : Store) (userId : String) (originalQuiz : Quiz)
    (slug : String) (targetDifficulty : String) (questions : List Question) : Quiz :=
  { id := s.nextId, slug := slug, creatorId := userId,
    topic := originalQuiz.topic, difficulty := targetDifficulty,
    questionTypes := originalQuiz.questionTypes,
    numberOfQuestions := originalQuiz.numberOfQuestions,
    questions := questions, isPublic := false,
    parentQuizId := some (originalQuiz.parentQuizId.getD originalQuiz.id) }

/-! ## Result service (result.service.ts) -/

/-- `getResultById(resultSlug, userId?)` (lines 66–129): look the result
up by slug, apply the public/owner access rule, then build the detailed
response by joining each graded answer against the populated quiz's
question list (an out-of-range index or a missing quiz would crash the
join — a 500).  The response body is a pure projection of the result and
quiz documents; the model returns the result document itself. -/
def getResultById (s : Store) (resultSlug : String) (userId : Option String) :
    Except ServiceError QuizResult :=
  match s.results.find? (fun r => r.slug == resultSlug) with
  | none => .error .notFound
  | some r =>
    let denied :=
      match userId with
      | none => !r.isResultPublic
      | some u => r.userId != u && !r.isResultPublic
    if denied then
      .error .forbidden
    else
      match s.quizzes.find? (fun q => q.id == r.quizId) with
      | none => .error .internalError
      | some quiz =>
        if r.answers.all (fun ga => ga.questionIndex < quiz.questions.length) then
          .ok r
        else
          .error .internalError

/-! ## Question validator (openai.service.ts, `validateAndFormatQuestions`,
lines 538–658)

The candidates come from `JSON.parse` of LLM output, so every field is
loosely typed.  An option entry or a correct-answer entry that is not a
string resp. not a number is modelled as `none`; an absent or non-array
field is modelled as `none` at the field level. -/

/-- A JavaScript number as it reaches the validator through `JSON.parse`:
either a finite value (modelled as a rational — JSON numbers need not be
integers) or `NaN`.  Every JS comparison with `NaN` is false, which the
range guard below encodes.  `±Infinity` always fails that guard exactly
as any out-of-range finite value does (`Infinity >= len` is true,
`-Infinity < 0` is true), so the rational constructor covers their
behaviour. -/
inductive JsNum
  | nan
  | num (q : ℚ)
deriving DecidableEq, Repr, Inhabited

/-- A raw candidate question record as the validator receives it. -/
structure Candidate where
  questionText : Option String
  questionType : Option String
  options : Option (List (Option String))
  correctAnswers : Option (List (Option JsNum))
  explanation : Option String
deriving DecidableEq, Repr, Inhabited

/-- A validated, formatted question (`QuizQuestion` in
`openai.interfaces.ts`).  `questionText` is pushed through unvalidated,
and the correct-answer numbers are pushed through as they came. -/
structure QuizQuestion where
  questionText : Option String
  questionType : String
  options : List String
  correctAnswers : List JsNum
  explanation : String
deriving DecidableEq, Repr, Inhabited

/-- The validator's failure (`throw new Error('No valid questions …')`). -/
inductive ValidationError
  | noValidQuestions
deriving DecidableEq, Repr, Inhabited

deriving instance DecidableEq for Except

/-- The three known type tags. -/
def knownTypes : List String := ["mcq", "true-false", "multiple-correct"]

/-- JavaScript's `String.prototype.trim()`: strip whitespace from both
ends of the character sequence. -/
def trimString (s : String) : String :=
  String.mk (((s.data.dropWhile Char.isWhitespace).reverse.dropWhile
    Char.isWhitespace).reverse)

/-- `opt.trim().toLowerCase()`: the normalisation under which options must
be pairwise distinct (`toLowerCase` applied character-wise). -/
def normalizeOption (s : String) : String :=
  String.mk ((trimString s).data.map Char.toLower)

/-- An option entry passes the per-entry test: it is a string
(`typeof opt === 'string'`) that is non-empty after trimming.  The source
check `typeof opt !== 'string' || !opt || opt.trim().length === 0` is the
negation of this. -/
def optionEntryOk (o : Option String) : Bool :=
  match o with
  | none => false
  | some str => trimString str != ""

/-- A correct-answer entry passes the per-entry test: it is a number
(`typeof === 'number'`) for which neither `answerIndex < 0` nor
`answerIndex >= stringOptions.length` holds.  The source check
`typeof answerIndex !== 'number' || answerIndex < 0 || answerIndex >=
stringOptions.length` is the negation of this.  The guard never checks
integrality, so an in-range fractional number passes; and since every JS
comparison with `NaN` is false, `NaN` passes the guard vacuously. -/
def caEntryOk (optionCount : Nat) (e : Option JsNum) : Bool :=
  match e with
  | none => false
  | some .nan => true
  | some (.num q) => !(decide (q < 0)) && !(decide ((optionCount : ℚ) ≤ q))

/-- One loop iteration of `validateAndFormatQuestions`: the sequence of
guards, each `continue` becoming `none`, and the final push becoming
`some`.  Guard order follows the source exactly. -/
def checkCandidate (requested : List String) (c : Candidate) : Option QuizQuestion :=
  let t := c.questionType.getD ""
  if !(knownTypes.contains t) then none
  else if !(requested.contains t) then none
  else
    match c.options with
    | none => none
    | some opts =>
      if opts.length < 2 then none
      else if opts.any (fun o => !(optionEntryOk o)) then none
      else
        let strs := opts.map (fun o => o.getD "")
        if (strs.map normalizeOption).dedup.length != strs.length then none
        else
          match c.correctAnswers with
          | none => none
          | some cas =>
            if cas.isEmpty then none
            else if cas.any (fun e => !(caEntryOk strs.length e)) then none
            else
              let nums := cas.map (fun e => e.getD (.num 0))
              if t == "true-false" && strs.length != 2 then none
              else if t == "mcq" && nums.length != 1 then none
              else if t == "multiple-correct" && nums.length < 2 then none
              else
                some { questionText := c.questionText, questionType := t,
                       options := strs, correctAnswers := nums,
                       explanation :=
                         match c.explanation with
                         | none => "No explanation provided."
                         | some e => if e == "" then "No explanation provided." else e }

/-- `validateAndFormatQuestions(questions, requestedQuestionTypes)`:
filter the candidates through the per-candidate guards, preserving order,
and fail with `NoValidQuestions` exactly when nothing survives. -/
def validateAndFormatQuestions (cands : List Candidate) (requested : List String) :
    Except ValidationError (List QuizQuestion) :=
  let valid := cands.filterMap (checkCandidate requested)
  if valid.isEmpty then .error .noValidQuestions else .ok valid

/-- The amended claim's reading of the validator's acceptance rule,
following the spec's words (§4.1) except rule 6, which the counterexample
forces into the form the code implements: known type tag, tag permitted,
at least two options, every option a non-empty string after trimming,
options pairwise unique under case-insensitive trimmed comparison,
`correctAnswers` a non-empty sequence of *numbers each passing the range
guard* (for ordinary numbers `0 ≤ n < optionCount`, with no integrality
requirement, and `NaN` passing vacuously), and the type-specific
cardinality rule. -/
def specValidCandidate (requested : List String) (c : Candidate) : Bool :=
  match c.questionType, c.options, c.correctAnswers with
  | some t, some opts, some cas =>
    knownTypes.contains t && requested.contains t
      && decide (2 ≤ opts.length)
      && opts.all optionEntryOk
      && decide ((opts.map (fun o => normalizeOption (o.getD ""))).Nodup)
      && !cas.isEmpty
      && cas.all (caEntryOk opts.length)
      && (if t == "true-false" then opts.length == 2
          else if t == "mcq" then cas.length == 1
          else cas.length ≥ 2)
  | _, _, _ => false

/-- Rule 6 exactly as the original claim words it: a correct-answer entry
must be an *integer that is a valid index* into the options sequence. -/
def integerIndexEntry (optionCount : Nat) (e : Option JsNum) : Bool :=
  match e with
  | some (.num q) =>
    decide (q.den = 1) && decide (0 ≤ q.num) && decide (q.num < (optionCount : Int))
  | _ => false

/-- The original claim's acceptance rule: identical to the amended
`specValidCandidate` except that rule 6 demands genuine integer option
indices. -/
def specValidCandidateIntIndices (requested : List String) (c : Candidate) : Bool :=
  match c.questionType, c.options, c.correctAnswers with
  | some t, some opts, some cas =>
    knownTypes.contains t && requested.contains t
      && decide (2 ≤ opts.length)
      && opts.all optionEntryOk
      && decide ((opts.map (fun o => normalizeOption (o.getD ""))).Nodup)
      && !cas.isEmpty
      && cas.all (integerIndexEntry opts.length)
      && (if t == "true-false" then opts.length == 2
          else if t == "mcq" then cas.length == 1
          else cas.length ≥ 2)
  | _, _, _ => false

/-- The survivor record the spec describes: the candidate's data with the
explanation defaulted to the fixed placeholder when absent or empty. -/
def specFormatCandidate (c : Candidate) : QuizQuestion :=
  { questionText := c.questionText
    questionType := c.questionType.getD ""
    options := (c.options.getD []).map (fun o => o.getD "")
    correctAnswers := (c.correctAnswers.getD []).map (fun e => e.getD (.num 0))
    explanation :=
      match c.explanation with
      | none => "No explanation provided."
      | some e => if e == "" then "No explanation provided." else e }

/-! ## Weak-topic extractor (openai.service.ts, `extractWeakTopics`,
lines 230–309) -/

/-- A wrong-answer record (`WrongAnswer` in `openai.interfaces.ts`). -/
structure WrongAnswer where
  questionText : String
  questionType : String
  selectedAnswers : List Int
  correctAnswers : List Int
  explanation : String
  options : List String
deriving DecidableEq, Repr, Inhabited

/-- The possible outcomes of the generator call made inside
`extractWeakTopics`: the call throws; it returns a message with no
content; the content fails `JSON.parse`; or it parses, with or without a
`topics` array. -/
inductive LLMResult
  | callError
  | noContent
  | unparsable
  | parsed (topics : Option (List String))
deriving DecidableEq, Repr, Inhabited

/-- `extractWeakTopics(wrongAnswers, originalTopic)`: returns the topic
list together with a flag recording whether the generator was invoked.
An empty `wrongAnswers` returns early with no call; every failure of the
call or of parsing is caught and degraded to an empty list. -/
def extractWeakTopics (wrongAnswers : List WrongAnswer) (llm : LLMResult) :
    List String × Bool :=
  if wrongAnswers.isEmpty then
    ([], false)
  else
    match llm with
    | .callError => ([], true)
    | .noContent => ([], true)
    | .unparsable => ([], true)
    | .parsed none => ([], true)
    | .parsed (some topics) => (topics, true)

/-- Whether an `LLMResult` is one of the failure modes the claim names:
the external call errored, or its output was unparsable. -/
def llmFailed : LLMResult → Bool
  | .callError => true
  | .unparsable => true
  | _ => false

/-! ## Spec-side notions used to compare the code against claim wording -/

/-- The correctness rule exactly as the spec words it (§4.3): "the
submitted selection set equals the question's correct-answer set exactly —
same cardinality and same members, order-independent". -/
def specSelectionSetEq (selected correct : List Int) : Bool :=
  selected.toFinset = correct.toFinset

/-! ## Concrete fixtures used by counterexamples and witnesses -/

/-- A single-choice question whose only correct option is index 0. -/
def qMcq : Question :=
  { questionText := "Q1", questionType := "mcq",
    options := ["a", "b", "c", "d"], correctAnswers := [0],
    explanation := "e1" }

/-- A multi-choice question whose correct indices are stored as `[1, 0]` —
deliberately unsorted. -/
def qMulti : Question :=
  { questionText := "Q2", questionType := "multiple-correct",
    options := ["a", "b", "c", "d"], correctAnswers := [1, 0],
    explanation := "e2" }

/-- A two-question quiz owned by `alice`. -/
def quizA : Quiz :=
  { id := 1, slug := "quiz-a", creatorId := "alice", topic := "js",
    difficulty := "easy", questionTypes := ["mcq", "multiple-correct"],
    numberOfQuestions := 2, questions := [qMcq, qMulti], isPublic := true,
    parentQuizId := none }

/-- An attempt by `alice` on `quizA`, with the given status and answers. -/
def attemptA (st : AttemptStatus) (ans : List Answer) : Attempt :=
  { id := 10, slug := "attempt-a", userId := "alice", quizId := 1,
    answers := ans, status := st }

/-- A store holding `quizA` and one attempt on it. -/
def storeA (st : AttemptStatus) (ans : List Answer) : Store :=
  { quizzes := [quizA], attempts := [attemptA st ans],
    results := [], nextId := 100 }

/-- An adaptive quiz: `parentQuizId` is set, and it was created private. -/
def quizAdaptive : Quiz :=
  { id := 2, slug := "quiz-ad", creatorId := "alice", topic := "js",
    difficulty := "medium", questionTypes := ["mcq"], numberOfQuestions := 1,
    questions := [qMcq], isPublic := false, parentQuizId := some 1 }

/-- A store holding only the adaptive quiz. -/
def storeAdaptive : Store :=
  { quizzes := [quizAdaptive], attempts := [], results := [], nextId := 50 }

/-- A store holding `quizA` and no attempts yet. -/
def storeNoAttempts : Store :=
  { quizzes := [quizA], attempts := [], results := [], nextId := 7 }

/-- The rational `1/2`, written in normal form so that it evaluates in
the kernel. -/
def half : ℚ := ⟨1, 2, by decide, Nat.coprime_one_left 2⟩

/-- A candidate whose single correct-answer entry is the in-range
fractional number `1/2` — a number, but not a valid option index. -/
def candHalf : Candidate :=
  { questionText := some "Q1", questionType := some "mcq",
    options := some [some "a", some "b"],
    correctAnswers := some [some (.num half)], explanation := some "e" }

/-- A candidate whose single correct-answer entry is `NaN`, which passes
both range comparisons vacuously. -/
def candNaN : Candidate :=
  { questionText := some "Q2", questionType := some "mcq",
    options := some [some "a", some "b"],
    correctAnswers := some [some .nan], explanation := some "e" }

/-- A sample wrong-answer record. -/
def waEx : WrongAnswer :=
  { questionText := "Q1", questionType := "mcq", selectedAnswers := [1],
    correctAnswers := [0], explanation := "e1", options := ["a", "b", "c", "d"] }

/-- The submit used by the C9 witness: a store with an in-progress,
fully-answered attempt, submitted without storage failure. -/
def c9Out : Except ServiceError QuizResult × Store :=
  submitAttempt (storeA .inProgress [⟨0, [0]⟩, ⟨1, [0, 1]⟩]) "attempt-a" "alice" "res-1" false

/-- The result document that submit produces. -/
def c9Res : QuizResult :=
  match c9Out.1 with
  | .ok r => r
  | .error _ => default

/-! ## Helper lemmas -/

/-- `sortInts` permutes its input. -/
theorem sortInts_perm (l : List Int) : (sortInts l).Perm l :=
  List.perm_insertionSort _ l

/-- `sortInts` sorts ascending. -/
theorem sortInts_sorted (l : List Int) : (sortInts l).Sorted (· ≤ ·) :=
  List.sorted_insertionSort _ l

/-- Two integer lists have equal ascending sorts iff they are permutations
of each other. -/
theorem sortInts_eq_iff {l₁ l₂ : List Int} :
    sortInts l₁ = sortInts l₂ ↔ l₁.Perm l₂ := by
  constructor
  · intro h
    exact ((sortInts_perm l₁).symm.trans (h ▸ List.Perm.refl _)).trans (sortInts_perm l₂)
  · intro h
    exact List.eq_of_perm_of_sorted
      (((sortInts_perm l₁).trans h).trans (sortInts_perm l₂).symm)
      (sortInts_sorted l₁) (sortInts_sorted l₂)

/-- After `save` replaces the document with `a'`'s `_id`, looking the
collection up by `a`'s slug finds the replaced document. -/
theorem find?_map_save (l : List Attempt) (slug : String) (a a' : Attempt)
    (hfind : l.find? (fun b => b.slug == slug) = some a)
    (hslug : a'.slug = a.slug) (hid : a'.id = a.id) :
    (l.map (fun b => if b.id == a'.id then a' else b)).find?
      (fun b => b.slug == slug) = some a' := by
  induction l with
  | nil => simp at hfind
  | cons b rest ih =>
    by_cases hb : (b.slug == slug) = true
    · rw [List.find?_cons_of_pos (p := fun (b : Attempt) => b.slug == slug) rest hb] at hfind
      injection hfind with hab
      subst hab
      simp only [List.map_cons, hid, beq_self_eq_true, if_true]
      exact List.find?_cons_of_pos (p := fun (b : Attempt) => b.slug == slug) _
        (by show (a'.slug == slug) = true; rw [hslug]; exact hb)
    · rw [List.find?_cons_of_neg (p := fun (b : Attempt) => b.slug == slug) rest hb] at hfind
      simp only [List.map_cons]
      by_cases hbid : (b.id == a'.id) = true
      · simp only [hbid, if_true]
        have ha : (a.slug == slug) = true :=
          List.find?_some (p := fun (b : Attempt) => b.slug == slug) hfind
        exact List.find?_cons_of_pos (p := fun (b : Attempt) => b.slug == slug) _
          (by show (a'.slug == slug) = true; rw [hslug]; exact ha)
      · simp only [hbid, if_false, Bool.false_eq_true]
        rw [List.find?_cons_of_neg (p := fun (b : Attempt) => b.slug == slug) _ hb]
        exact ih hfind

/-- After the upsert, the first stored answer for the DTO's question index
is exactly the DTO's data. -/
theorem upsertAnswer_find? (dto : SubmitAnswerDto) (l : List Answer) :
    (upsertAnswer dto l).find? (fun a => a.questionIndex == dto.questionIndex)
      = some { questionIndex := dto.questionIndex,
               selectedAnswers := dto.selectedAnswers } := by
  induction l with
  | nil => simp [upsertAnswer]
  | cons a rest ih =>
    by_cases hq : (a.questionIndex == dto.questionIndex) = true
    · have heq : a.questionIndex = dto.questionIndex := eq_of_beq hq
      simp [upsertAnswer, hq, heq]
    · simp only [upsertAnswer, hq, Bool.false_eq_true, if_false]
      rw [List.find?_cons_of_neg (p := fun (a : Answer) =>
        a.questionIndex == dto.questionIndex) _ hq]
      exact ih

/-- A graded answer always carries the index of the question it grades. -/
theorem gradeAt_questionIndex (att : Attempt) (i : Nat) (q : Question) :
    (gradeAt att i q).questionIndex = i := by
  unfold gradeAt
  cases att.answers.find? (fun a => a.questionIndex == i) <;> rfl

/-- Every graded answer the scoring loop pushes has a question index below
the end of the range it walks. -/
theorem gradeLoop_questionIndex_lt (att : Attempt) :
    ∀ (qs : List Question) (i : Nat), ∀ ga ∈ (gradeLoop att i qs).2,
      ga.questionIndex < i + qs.length := by
  intro qs
  induction qs with
  | nil => intro i ga hga; simp [gradeLoop] at hga
  | cons q rest ih =>
    intro i ga hga
    simp only [gradeLoop, List.mem_cons] at hga
    cases hga with
    | inl h =>
      subst h
      rw [gradeAt_questionIndex]
      simp only [List.length_cons]
      omega
    | inr h =>
      have := ih (i + 1) ga h
      simp only [List.length_cons]
      omega

/-- The loop body grades a question correct exactly when a stored answer
exists for its index and the submitted selection sequence is a permutation
(multiset equality) of the question's correct-answer sequence. -/
theorem gradeAt_isCorrect_iff (att : Attempt) (i : Nat) (q : Question) :
    (gradeAt att i q).isCorrect = true ↔
      ∃ ua, att.answers.find? (fun a => a.questionIndex == i) = some ua ∧
        ua.selectedAnswers.Perm q.correctAnswers := by
  unfold gradeAt
  cases hf : att.answers.find? (fun a => a.questionIndex == i) with
  | none => simp
  | some ua =>
    simp only [hf, Option.some.injEq, Bool.and_eq_true, beq_iff_eq]
    constructor
    · intro h
      refine ⟨ua, rfl, ?_⟩
      exact (sortInts_eq_iff.mp h.2.symm)
    · rintro ⟨ua', hua', hperm⟩
      subst hua'
      have he : sortInts q.correctAnswers = sortInts ua.selectedAnswers :=
        (sortInts_eq_iff.mpr hperm).symm
      exact ⟨by rw [he], he⟩

/-- Element `j` of the graded-answer list is the loop body applied to
question `j`. -/
theorem gradeLoop_getElem? (att : Attempt) :
    ∀ (qs : List Question) (i j : Nat) (q : Question), qs[j]? = some q →
      (gradeLoop att i qs).2[j]? = some (gradeAt att (i + j) q) := by
  intro qs
  induction qs with
  | nil => intro i j q hq; simp at hq
  | cons qh rest ih =>
    intro i j q hq
    cases j with
    | zero =>
      simp only [List.getElem?_cons_zero, Option.some.injEq] at hq
      subst hq
      simp [gradeLoop]
    | succ j =>
      simp only [List.getElem?_cons_succ] at hq
      have hrec := ih (i + 1) j q hq
      have harith : i + 1 + j = i + (j + 1) := by omega
      rw [harith] at hrec
      simpa [gradeLoop] using hrec

/-- The accumulated score equals the number of graded answers marked
correct. -/
theorem gradeLoop_score_eq (att : Attempt) :
    ∀ (qs : List Question) (i : Nat),
      (gradeLoop att i qs).1
        = ((gradeLoop att i qs).2.filter (fun ga => ga.isCorrect)).length := by
  intro qs
  induction qs with
  | nil => intro i; rfl
  | cons q rest ih =>
    intro i
    simp only [gradeLoop, List.filter_cons]
    by_cases hc : (gradeAt att i q).isCorrect = true
    · simp only [hc, if_true, List.length_cons, ih (i + 1)]
      omega
    · simp only [Bool.of_not_eq_true hc, Bool.false_eq_true, if_false, ih (i + 1)]
      omega

/-- The quiz-side mutation only permutes (sorts) `correctAnswers` arrays;
every other field of every question is preserved, in order. -/
theorem sortQuestionsFrom_forall₂ (att : Attempt) :
    ∀ (qs : List Question) (i : Nat),
      List.Forall₂ (fun q q' => q'.questionText = q.questionText ∧
          q'.questionType = q.questionType ∧ q'.options = q.options ∧
          q'.explanation = q.explanation ∧ q'.correctAnswers.Perm q.correctAnswers)
        qs (sortQuestionsFrom att i qs) := by
  intro qs
  induction qs with
  | nil => intro i; exact List.Forall₂.nil
  | cons q rest ih =>
    intro i
    simp only [sortQuestionsFrom]
    refine List.Forall₂.cons ?_ (ih (i + 1))
    by_cases hf : (att.answers.find? (fun a => a.questionIndex == i)).isSome = true
    · rw [if_pos hf]
      exact ⟨rfl, rfl, rfl, rfl, sortInts_perm q.correctAnswers⟩
    · rw [if_neg hf]
      exact ⟨rfl, rfl, rfl, rfl, List.Perm.refl _⟩

/-- The attempt-side mutation only permutes (sorts) `selectedAnswers`
arrays; every stored answer keeps its question index, in order. -/
theorem sortStoredFrom_forall₂ (len : Nat) :
    ∀ (l : List Answer) (seen : List Nat),
      List.Forall₂ (fun a a' => a'.questionIndex = a.questionIndex ∧
          a'.selectedAnswers.Perm a.selectedAnswers)
        l (sortStoredFrom len seen l) := by
  intro l
  induction l with
  | nil => intro seen; exact List.Forall₂.nil
  | cons a rest ih =>
    intro seen
    simp only [sortStoredFrom]
    refine List.Forall₂.cons ?_ (ih (a.questionIndex :: seen))
    by_cases hc : (a.questionIndex < len && !(seen.contains a.questionIndex)) = true
    · rw [if_pos hc]
      exact ⟨rfl, sortInts_perm a.selectedAnswers⟩
    · rw [if_neg hc]
      exact ⟨rfl, List.Perm.refl _⟩

/-- A list has an element failing `p` exactly when not all pass `p`
(boolean form). -/
theorem any_not_eq_not_all {α : Type} (p : α → Bool) (l : List α) :
    l.any (fun x => !(p x)) = !(l.all p) := by
  induction l with
  | nil => rfl
  | cons a rest ih => simp [List.any_cons, List.all_cons, ih, Bool.not_and]

/-- A JavaScript `Set` built from a list has the list's size exactly when
the list has no duplicates. -/
theorem dedup_length_eq_iff_nodup (l : List String) :
    (l.dedup.length = l.length) ↔ l.Nodup := by
  constructor
  · intro h
    exact List.dedup_eq_self.mp ((List.dedup_sublist l).eq_of_length h)
  · intro h
    rw [List.dedup_eq_self.mpr h]

/-- The validator's sequential guard chain accepts a candidate exactly
when the declarative rule conjunction does, and then produces exactly the
spec's survivor record. -/
theorem checkCandidate_eq_spec (requested : List String) (c : Candidate) :
    checkCandidate requested c =
      if specValidCandidate requested c then some (specFormatCandidate c) else none := by
  obtain ⟨qt, qty, opts, cas, expl⟩ := c
  cases qty with
  | none => rfl
  | some t =>
    cases opts with
    | none =>
      have hspec : specValidCandidate requested ⟨qt, some t, none, cas, expl⟩ = false := rfl
      rw [hspec, if_neg (by simp)]
      simp only [checkCandidate]
      split
      · rfl
      split
      · rfl
      rfl
    | some os =>
      cases cas with
      | none =>
        have hspec : specValidCandidate requested ⟨qt, some t, some os, none, expl⟩
            = false := rfl
        rw [hspec, if_neg (by simp)]
        simp only [checkCandidate]
        split
        · rfl
        split
        · rfl
        split
        · rfl
        split
        · rfl
        split
        · rfl
        rfl
      | some cs =>
        unfold checkCandidate specValidCandidate
        simp only [Option.getD_some, List.length_map]
        by_cases h1 : (knownTypes.contains t) = true
        swap
        · simp only [Bool.of_not_eq_true h1, Bool.not_false, if_true, Bool.false_and,
            Bool.false_eq_true, if_false]
        simp only [h1, Bool.not_true, Bool.false_eq_true, if_false, Bool.true_and]
        by_cases h2 : (requested.contains t) = true
        swap
        · simp only [Bool.of_not_eq_true h2, Bool.not_false, if_true, Bool.false_and,
            Bool.false_eq_true, if_false]
        simp only [h2, Bool.not_true, Bool.false_eq_true, if_false, Bool.true_and]
        by_cases h3 : os.length < 2
        · have h3f : decide (2 ≤ os.length) = false := decide_eq_false (by omega)
          simp only [if_pos h3, h3f, Bool.false_and, Bool.false_eq_true, if_false]
        have h3t : decide (2 ≤ os.length) = true := decide_eq_true (by omega)
        simp only [if_neg h3, h3t, Bool.true_and]
        by_cases h4 : (os.any fun o => !(optionEntryOk o)) = true
        · have h4f : os.all optionEntryOk = false := by
            have hx := any_not_eq_not_all optionEntryOk os
            rw [h4] at hx
            cases hall : os.all optionEntryOk with
            | false => rfl
            | true => rw [hall] at hx; simp at hx
          simp only [if_pos h4, h4f, Bool.false_and, Bool.false_eq_true, if_false]
        have h4t : os.all optionEntryOk = true := by
          have hx := any_not_eq_not_all optionEntryOk os
          cases hall : os.all optionEntryOk with
          | false =>
            rw [hall] at hx
            simp only [Bool.not_false] at hx
            exact absurd hx h4
          | true => rfl
        simp only [if_neg h4, h4t, Bool.true_and]
        have hmm : (os.map (fun o => o.getD "")).map normalizeOption
            = os.map (fun o => normalizeOption (o.getD "")) := by
          simp [List.map_map, Function.comp]
        by_cases h5 : ((os.map (fun o => o.getD "")).map normalizeOption).dedup.length
            = os.length
        · have h5f : ¬ ((((os.map (fun o => o.getD "")).map normalizeOption).dedup.length
              != os.length) = true) := by
            rw [bne_iff_ne]
            intro hne
            exact hne h5
          have hnd : decide ((os.map (fun o => normalizeOption (o.getD ""))).Nodup)
              = true := by
            refine decide_eq_true ?_
            refine (dedup_length_eq_iff_nodup _).mp ?_
            rw [← hmm, h5, List.length_map, List.length_map]
          simp only [if_neg h5f, hnd, Bool.true_and]
          by_cases h6 : cs.isEmpty = true
          · simp only [if_pos h6, h6, Bool.not_true, Bool.false_and, Bool.false_eq_true,
              if_false]
            exact if_pos trivial
          simp only [if_neg h6, Bool.of_not_eq_true h6, Bool.not_false, Bool.true_and]
          by_cases h7 : (cs.any fun e => !(caEntryOk os.length e)) = true
          · have h7f : cs.all (caEntryOk os.length) = false := by
              have hx := any_not_eq_not_all (caEntryOk os.length) cs
              rw [h7] at hx
              cases hall : cs.all (caEntryOk os.length) with
              | false => rfl
              | true => rw [hall] at hx; simp at hx
            simp only [if_pos h7, h7f, Bool.false_and, Bool.false_eq_true, if_false]
          have h7t : cs.all (caEntryOk os.length) = true := by
            have hx := any_not_eq_not_all (caEntryOk os.length) cs
            cases hall : cs.all (caEntryOk os.length) with
            | false =>
              rw [hall] at hx
              simp only [Bool.not_false] at hx
              exact absurd hx h7
            | true => rfl
          simp only [if_neg h7, h7t, Bool.true_and]
          have hmem : t = "mcq" ∨ t = "true-false" ∨ t = "multiple-correct" := by
            simpa [knownTypes] using h1
          rcases hmem with ht | ht | ht <;> subst ht
          · have hx1 : (("mcq" : String) == "true-false") = false := by decide
            have hx2 : (("mcq" : String) == "mcq") = true := by decide
            have hx3 : (("mcq" : String) == "multiple-correct") = false := by decide
            simp only [hx1, hx2, hx3, Bool.false_and, Bool.false_eq_true, if_false,
              Bool.true_and, if_true]
            by_cases h9 : cs.length = 1
            · have h9b : (cs.length == 1) = true := beq_iff_eq.mpr h9
              have h9f : ¬ ((cs.length != 1) = true) := by
                rw [bne_iff_ne]
                intro hne
                exact hne h9
              simp only [if_neg h9f, h9b, if_true, specFormatCandidate, Option.getD_some]
            · have h9b : (cs.length == 1) = false := by
                cases hb : (cs.length == 1) with
                | false => rfl
                | true => exact absurd (eq_of_beq hb) h9
              have h9p : (cs.length != 1) = true := bne_iff_ne.mpr h9
              simp only [if_pos h9p, h9b, Bool.false_eq_true, if_false]
          · have hx1 : (("true-false" : String) == "true-false") = true := by decide
            simp only [hx1, Bool.true_and, if_true]
            by_cases h8 : os.length = 2
            · have h8b : (os.length == 2) = true := beq_iff_eq.mpr h8
              have h8f : ¬ ((os.length != 2) = true) := by
                rw [bne_iff_ne]
                intro hne
                exact hne h8
              have hx2 : (("true-false" : String) == "mcq") = false := by decide
              have hx3 : (("true-false" : String) == "multiple-correct") = false := by decide
              simp only [if_neg h8f, hx2, hx3, Bool.false_and, Bool.false_eq_true, if_false,
                h8b, if_true, specFormatCandidate, Option.getD_some]
            · have h8b : (os.length == 2) = false := by
                cases hb : (os.length == 2) with
                | false => rfl
                | true => exact absurd (eq_of_beq hb) h8
              have h8p : (os.length != 2) = true := bne_iff_ne.mpr h8
              simp only [if_pos h8p, h8b, Bool.false_eq_true, if_false]
          · have hx1 : (("multiple-correct" : String) == "true-false") = false := by decide
            have hx2 : (("multiple-correct" : String) == "mcq") = false := by decide
            have hx3 : (("multiple-correct" : String) == "multiple-correct") = true := by
              decide
            simp only [hx1, hx2, hx3, Bool.false_and, Bool.false_eq_true, if_false,
              Bool.true_and, if_true]
            by_cases h10 : cs.length < 2
            · have h10d : decide (cs.length < 2) = true := decide_eq_true h10
              have h10b : decide (cs.length ≥ 2) = false := decide_eq_false (by omega)
              simp only [h10d, if_true, h10b, Bool.false_eq_true, if_false]
            · have h10d : decide (cs.length < 2) = false := decide_eq_false h10
              have h10b : decide (cs.length ≥ 2) = true := decide_eq_true (by omega)
              simp only [h10d, Bool.false_eq_true, if_false, h10b, if_true,
                specFormatCandidate, Option.getD_some]
        · have h5p : ((((os.map (fun o => o.getD "")).map normalizeOption).dedup.length
              != os.length) = true) := bne_iff_ne.mpr h5
          have hnd : decide ((os.map (fun o => normalizeOption (o.getD ""))).Nodup)
              = false := by
            refine decide_eq_false ?_
            intro hn
            refine h5 ?_
            have hl := (dedup_length_eq_iff_nodup
              (List.map (fun o => normalizeOption (o.getD "")) os)).mpr hn
            rw [List.length_map] at hl
            rw [hmm]
            exact hl
          simp only [if_pos h5p, hnd, Bool.false_and, Bool.false_eq_true, if_false]


/-- A `filterMap` whose body is a guarded `some` is a `filter` followed by
a `map`. -/
theorem filterMap_guard_eq {α β : Type} (p : α → Bool) (f : α → β) (l : List α) :
    l.filterMap (fun x => if p x then some (f x) else none)
      = (l.filter p).map f := by
  induction l with
  | nil => rfl
  | cons a rest ih =>
    by_cases h : p a = true
    · simp [List.filterMap_cons, List.filter_cons, h, ih]
    · simp [List.filterMap_cons, List.filter_cons, h, ih]

/-! ## Claim theorems -/

/-- Claim C1 (code_bug evidence): `submitAttempt` flips the attempt to
`completed` and saves it *before* persisting the Result.  In the execution
where `result.save()` fails, the store ends with the attempt marked
completed and no Result at all, and a retried submit fails `InvalidState`
("already completed") without ever creating the missing Result — the
partial failure §7 of the spec forbids. -/
theorem C1_submit_not_atomic :
    (submitAttempt (storeA .inProgress [⟨0, [0]⟩, ⟨1, [0, 1]⟩])
        "attempt-a" "alice" "res-1" true).1 = .error .internalError ∧
    (((submitAttempt (storeA .inProgress [⟨0, [0]⟩, ⟨1, [0, 1]⟩])
        "attempt-a" "alice" "res-1" true).2.attempts.find?
          (fun a => a.slug == "attempt-a")).map (fun a => a.status)
      = some .completed) ∧
    (submitAttempt (storeA .inProgress [⟨0, [0]⟩, ⟨1, [0, 1]⟩])
        "attempt-a" "alice" "res-1" true).2.results = [] ∧
    (submitAttempt
        (submitAttempt (storeA .inProgress [⟨0, [0]⟩, ⟨1, [0, 1]⟩])
          "attempt-a" "alice" "res-1" true).2
        "attempt-a" "alice" "res-2" false).1 = .error .badRequest ∧
    (submitAttempt
        (submitAttempt (storeA .inProgress [⟨0, [0]⟩, ⟨1, [0, 1]⟩])
          "attempt-a" "alice" "res-1" true).2
        "attempt-a" "alice" "res-2" false).2.results = [] := by
  refine ⟨rfl, rfl, rfl, rfl, rfl⟩

/-- Claim C2 counterexample: `abandonAttempt` performs no lifecycle-state
check, so called on a *completed* attempt it succeeds and overwrites the
status with `abandoned` — it neither fails `InvalidState` nor leaves the
terminal status unchanged. -/
theorem C2_abandon_completed_counterexample :
    (abandonAttempt (storeA .completed []) "attempt-a" "alice").1 = .ok () ∧
    (((abandonAttempt (storeA .completed []) "attempt-a" "alice").2.attempts.find?
        (fun a => a.slug == "attempt-a")).map (fun a => a.status)
      = some .abandoned) := by
  exact ⟨rfl, rfl⟩

/-- Claim C2 as amended: for a terminal (completed or abandoned) attempt,
`submitAnswer` and `submit` do fail `InvalidState` and leave the store
untouched — but `abandon` performs no lifecycle check at all: on any
existing attempt owned by the caller it succeeds and overwrites the status
with `abandoned`, including on a completed attempt (re-abandoning is an
idempotent success). -/
theorem C2_terminal_attempt_behavior (s : Store) (slug userId : String) (a : Attempt)
    (hfind : s.attempts.find? (fun b => b.slug == slug) = some a)
    (hown : a.userId = userId)
    (hterm : a.status ≠ .inProgress) :
    (∀ dto, submitAnswer s slug userId dto = (.error .badRequest, s)) ∧
    (∀ rslug ff, submitAttempt s slug userId rslug ff = (.error .badRequest, s)) ∧
    ((abandonAttempt s slug userId).1 = .ok () ∧
      (abandonAttempt s slug userId).2.attempts.find? (fun b => b.slug == slug)
        = some { a with status := .abandoned }) := by
  subst hown
  have hbne : (a.status != AttemptStatus.inProgress) = true := by
    simpa [bne_iff_ne] using hterm
  refine ⟨?_, ?_, ?_, ?_⟩
  · intro dto
    simp [submitAnswer, hfind, hbne]
  · intro rslug ff
    simp [submitAttempt, hfind, hbne]
  · simp [abandonAttempt, hfind]
  · simp only [abandonAttempt, hfind, bne_self_eq_false, Bool.false_eq_true, if_false,
      Store.saveAttempt]
    exact find?_map_save s.attempts slug a { a with status := .abandoned } hfind rfl rfl

/-- Witness for C2's amended theorem at a concrete completed attempt. -/
theorem C2_terminal_attempt_behavior_witness :
    (submitAnswer (storeA .completed []) "attempt-a" "alice" ⟨0, [1]⟩
        = (.error .badRequest, storeA .completed [])) ∧
    ((abandonAttempt (storeA .completed []) "attempt-a" "alice").2.attempts.find?
        (fun b => b.slug == "attempt-a") = some { attemptA .completed [] with status := .abandoned }) := by
  have h := C2_terminal_attempt_behavior (storeA .completed []) "attempt-a" "alice"
    (attemptA .completed []) (by rfl) (by rfl) (by simp [attemptA])
  exact ⟨h.1 ⟨0, [1]⟩, h.2.2.2⟩

/-- Claim C3 (code_bug evidence): `toggleVisibility` refuses to make an
adaptive quiz public and `generateAdaptiveQuiz` creates adaptive quizzes
private, but `updateQuiz` overwrites `isPublic` with no `parentQuizId`
check, so an adaptive quiz *can* be made public through it. -/
theorem C3_updateQuiz_makes_adaptive_public :
    (updateQuiz storeAdaptive "quiz-ad" "alice" (some true)).1
        = .ok { quizAdaptive with isPublic := true } ∧
    (((updateQuiz storeAdaptive "quiz-ad" "alice" (some true)).2.quizzes.find?
        (fun q => q.slug == "quiz-ad")).map (fun q => (q.isPublic, q.parentQuizId))
      = some (true, some 1)) ∧
    toggleVisibility storeAdaptive "quiz-ad" "alice" = (.error .badRequest, storeAdaptive) ∧
    (mkAdaptiveQuiz storeAdaptive "alice" quizA "quiz-new" "hard" [qMcq]).isPublic = false := by
  exact ⟨rfl, rfl, rfl, rfl⟩

/-- Claim C9: a successful submit builds its Result without touching
`isResultPublic`, so the schema default `true` applies, and `getResultById`
on the fresh slug therefore succeeds for every caller — with any user
identity or with none. -/
theorem C9_fresh_result_public (s : Store) (slug userId rslug : String)
    (r : QuizResult) (s' : Store)
    (h : submitAttempt s slug userId rslug false = (.ok r, s'))
    (hfresh : ∀ r0 ∈ s.results, r0.slug ≠ rslug) :
    r.isResultPublic = true ∧ ∀ viewer, getResultById s' rslug viewer = .ok r := by
  unfold submitAttempt at h
  cases hfind : s.attempts.find? (fun b => b.slug == slug) with
  | none => simp [hfind] at h
  | some att =>
    simp only [hfind] at h
    by_cases howner : (att.userId != userId) = true
    · simp [howner] at h
    · rw [if_neg howner] at h
      by_cases hst : (att.status != AttemptStatus.inProgress) = true
      · simp [hst] at h
      · rw [if_neg hst] at h
        cases hq : s.quizzes.find? (fun q => q.id == att.quizId) with
        | none => simp [hq] at h
        | some quiz =>
          simp only [hq, Bool.false_eq_true, if_false, Prod.mk.injEq] at h
          obtain ⟨h1, h2⟩ := h
          injection h1 with h1
          subst h1
          subst h2
          refine ⟨rfl, fun viewer => ?_⟩
          unfold getResultById
          simp only [Store.insertResult, Store.saveAttempt, List.find?_append]
          rw [List.find?_eq_none.mpr
            (fun x hx hbeq => hfresh x hx (eq_of_beq hbeq))]
          simp only [Option.none_or, List.find?_cons, beq_self_eq_true]
          have hall : ((calculateScore quiz att).answers.all fun ga =>
              decide (ga.questionIndex < quiz.questions.length)) = true :=
            List.all_eq_true.mpr (fun ga hga => by
              have := gradeLoop_questionIndex_lt att quiz.questions 0 ga hga
              simpa using this)
          cases viewer with
          | none =>
            simp only [Bool.not_true, Bool.false_eq_true, if_false, hq, hall, if_true]
          | some u =>
            simp only [Bool.not_true, Bool.and_false, Bool.false_eq_true, if_false,
              hq, hall, if_true]

/-- Witness for C9 at a concrete submit. -/
theorem C9_fresh_result_public_witness :
    c9Res.isResultPublic = true ∧ ∀ viewer, getResultById c9Out.2 "res-1" viewer = .ok c9Res := by
  exact C9_fresh_result_public (storeA .inProgress [⟨0, [0]⟩, ⟨1, [0, 1]⟩])
    "attempt-a" "alice" "res-1" c9Res c9Out.2 (by rfl) (by simp [storeA])

/-- Claim C10: `submitAnswer` validates only the question index against
the quiz (`questionIndex < questions.length`), never the selected indices.
For *any* non-empty list of integers — negative, at or beyond the option
count, duplicated — the call succeeds and the answer is stored verbatim
for that question index. -/
theorem C10_selected_indices_stored_verbatim (s : Store) (slug userId : String)
    (att : Attempt) (quiz : Quiz) (dto : SubmitAnswerDto)
    (hfind : s.attempts.find? (fun b => b.slug == slug) = some att)
    (hown : att.userId = userId)
    (hst : att.status = .inProgress)
    (hq : s.quizzes.find? (fun q => q.id == att.quizId) = some quiz)
    (hidx : dto.questionIndex < quiz.questions.length)
    (_hne : dto.selectedAnswers ≠ []) :
    (submitAnswer s slug userId dto).1
        = .ok { att with answers := upsertAnswer dto att.answers } ∧
    ((submitAnswer s slug userId dto).2.attempts.find? (fun b => b.slug == slug)).map
        (fun b => b.answers.find? (fun a => a.questionIndex == dto.questionIndex))
      = some (some { questionIndex := dto.questionIndex,
                     selectedAnswers := dto.selectedAnswers }) := by
  subst hown
  have hrun : submitAnswer s slug att.userId dto
      = (.ok { att with answers := upsertAnswer dto att.answers },
         s.saveAttempt { att with answers := upsertAnswer dto att.answers }) := by
    simp [submitAnswer, hfind, hst, hq, Nat.not_le.mpr hidx]
  refine ⟨by rw [hrun], ?_⟩
  rw [hrun]
  simp only [Store.saveAttempt]
  rw [find?_map_save s.attempts slug att
    { att with answers := upsertAnswer dto att.answers } hfind rfl rfl]
  simp [upsertAnswer_find? dto att.answers]

/-- Witness for C10: a selection containing a negative index, an index far
beyond the option count, and a duplicate is accepted and stored verbatim. -/
theorem C10_selected_indices_stored_verbatim_witness :
    (submitAnswer (storeA .inProgress []) "attempt-a" "alice" ⟨1, [-1, 7, 7]⟩).1
        = .ok { attemptA .inProgress [] with
                answers := upsertAnswer ⟨1, [-1, 7, 7]⟩ [] } ∧
    ((submitAnswer (storeA .inProgress []) "attempt-a" "alice"
        ⟨1, [-1, 7, 7]⟩).2.attempts.find? (fun b => b.slug == "attempt-a")).map
        (fun b => b.answers.find? (fun a => a.questionIndex == 1))
      = some (some { questionIndex := 1, selectedAnswers := [-1, 7, 7] }) := by
  exact C10_selected_indices_stored_verbatim (storeA .inProgress []) "attempt-a" "alice"
    (attemptA .inProgress []) quizA ⟨1, [-1, 7, 7]⟩ (by rfl) (by rfl) (by rfl) (by rfl)
    (by decide) (by decide)

/-- Claim C5 as amended: `calculateScore`'s outputs are a function of its
two arguments alone, but the call is not frame-preserving: it sorts, in
place, the `correctAnswers` of each answered question and the
`selectedAnswers` of each first stored answer with a valid index.  What
survives is preservation up to permutation: no field other than those two
arrays changes, order and length of both lists are kept, and each mutated
array is a permutation (the ascending sort) of its previous value. -/
theorem C5_score_mutates_only_by_sorting (quiz : Quiz) (attempt : Attempt) :
    (calculateScore quiz attempt).quizAfter
        = { quiz with questions := (calculateScore quiz attempt).quizAfter.questions } ∧
    List.Forall₂ (fun q q' => q'.questionText = q.questionText ∧
        q'.questionType = q.questionType ∧ q'.options = q.options ∧
        q'.explanation = q.explanation ∧ q'.correctAnswers.Perm q.correctAnswers)
      quiz.questions (calculateScore quiz attempt).quizAfter.questions ∧
    (calculateScore quiz attempt).attemptAfter
        = { attempt with answers := (calculateScore quiz attempt).attemptAfter.answers } ∧
    List.Forall₂ (fun a a' => a'.questionIndex = a.questionIndex ∧
        a'.selectedAnswers.Perm a.selectedAnswers)
      attempt.answers (calculateScore quiz attempt).attemptAfter.answers := by
  refine ⟨rfl, ?_, rfl, ?_⟩
  · exact sortQuestionsFrom_forall₂ attempt quiz.questions 0
  · exact sortStoredFrom_forall₂ quiz.questions.length attempt.answers []

/-- Claim C6: `startAttempt` is idempotent for re-entry.  Whenever a call
succeeds and returns attempt `a` leaving the store at `s'`, an immediately
repeated call (any fresh slug the generator may produce) returns the very
same attempt `a` and leaves the store exactly at `s'` — no duplicate
attempt is created. -/
theorem C6_start_idempotent (s : Store) (userId quizSlug slugOne : String)
    (a : Attempt) (s' : Store)
    (h : startAttempt s userId quizSlug slugOne = (.ok a, s')) :
    ∀ slugTwo, startAttempt s' userId quizSlug slugTwo = (.ok a, s') := by
  intro slugTwo
  unfold startAttempt at h ⊢
  cases hq : s.quizzes.find? (fun q => q.slug == quizSlug) with
  | none => simp [hq] at h
  | some quiz =>
    simp only [hq] at h
    by_cases hacc : (quiz.creatorId != userId && !quiz.isPublic) = true
    · simp [hacc] at h
    · rw [if_neg hacc] at h
      cases hex : s.attempts.find? (fun b =>
          b.userId == userId && b.quizId == quiz.id
            && b.status == AttemptStatus.inProgress) with
      | some existing =>
        rw [hex] at h
        simp only [Prod.mk.injEq] at h
        obtain ⟨h1, h2⟩ := h
        injection h1 with h1
        subst h1
        subst h2
        simp only [hq, if_neg hacc, hex]
      | none =>
        rw [hex] at h
        simp only [Prod.mk.injEq] at h
        obtain ⟨h1, h2⟩ := h
        injection h1 with h1
        subst h1
        subst h2
        simp only [hq, if_neg hacc, List.find?_append, hex, Option.none_or,
          List.find?_cons, beq_self_eq_true, Bool.and_self, Bool.and_true, Bool.true_and]

/-- Witness for C6 at a concrete store: starting twice on a quiz with no
prior attempt returns the attempt the first call created, unchanged. -/
theorem C6_start_idempotent_witness :
    startAttempt (startAttempt storeNoAttempts "alice" "quiz-a" "attempt-x").2
        "alice" "quiz-a" "attempt-y"
      = ((startAttempt storeNoAttempts "alice" "quiz-a" "attempt-x").1,
         (startAttempt storeNoAttempts "alice" "quiz-a" "attempt-x").2) := by
  exact C6_start_idempotent storeNoAttempts "alice" "quiz-a" "attempt-x"
    { id := 7, slug := "attempt-x", userId := "alice", quizId := 1,
      answers := [], status := .inProgress } _ (by rfl) "attempt-y"

/-- Claim C4 counterexample: grading is *list* comparison of the sorted
sequences, not set equality.  Submitting `[0, 0]` for a question whose
correct set is `{0}` is set-equal to the correct-answer set (same members,
same set cardinality), yet the code grades it incorrect because the sorted
sequences have different lengths. -/
theorem C4_set_equality_counterexample :
    specSelectionSetEq [0, 0] [0] = true ∧
    ((calculateScore quizA (attemptA .inProgress [⟨0, [0, 0]⟩])).answers.map
        (fun ga => ga.isCorrect)) = [false, false] ∧
    (calculateScore quizA (attemptA .inProgress [⟨0, [0, 0]⟩])).score = 0 := by
  refine ⟨by decide, rfl, rfl⟩

/-- Claim C4 as amended: for every question index with a question, the
graded answer for it is the loop body's record, and it is marked correct
*iff* a stored submission exists for that index and the submitted
selection sequence is a permutation — multiset equality, not set
equality — of the question's correct-answer sequence.  (On duplicate-free
selections this coincides with set equality; an absent submission is never
correct; strict supersets and subsets are never permutations.)  The score
is the count of correct questions. -/
theorem C4_grading_multiset_equality (quiz : Quiz) (attempt : Attempt) (i : Nat)
    (q : Question) (hq : quiz.questions[i]? = some q) :
    (calculateScore quiz attempt).answers[i]? = some (gradeAt attempt i q) ∧
    ((gradeAt attempt i q).isCorrect = true ↔
      ∃ ua, attempt.answers.find? (fun a => a.questionIndex == i) = some ua ∧
        ua.selectedAnswers.Perm q.correctAnswers) ∧
    (calculateScore quiz attempt).score
      = ((calculateScore quiz attempt).answers.filter (fun ga => ga.isCorrect)).length := by
  refine ⟨?_, gradeAt_isCorrect_iff attempt i q, ?_⟩
  · have := gradeLoop_getElem? attempt quiz.questions 0 i q hq
    simpa [calculateScore] using this
  · simpa [calculateScore] using gradeLoop_score_eq attempt quiz.questions 0

/-- Witness for C4's amended theorem: question 0 of `quizA`, answered with
exactly the correct selection. -/
theorem C4_grading_multiset_equality_witness :
    (calculateScore quizA (attemptA .inProgress [⟨0, [0]⟩])).answers[0]?
        = some (gradeAt (attemptA .inProgress [⟨0, [0]⟩]) 0 qMcq) ∧
    ((gradeAt (attemptA .inProgress [⟨0, [0]⟩]) 0 qMcq).isCorrect = true ↔
      ∃ ua, (attemptA .inProgress [⟨0, [0]⟩]).answers.find?
          (fun a => a.questionIndex == 0) = some ua ∧
        ua.selectedAnswers.Perm qMcq.correctAnswers) ∧
    (calculateScore quizA (attemptA .inProgress [⟨0, [0]⟩])).score
      = ((calculateScore quizA (attemptA .inProgress [⟨0, [0]⟩])).answers.filter
          (fun ga => ga.isCorrect)).length := by
  exact C4_grading_multiset_equality quizA (attemptA .inProgress [⟨0, [0]⟩]) 0 qMcq (by rfl)

/-- Claim C5 counterexample: `calculateScore` is not observationally pure
on its inputs — JavaScript's in-place `Array.prototype.sort` reorders the
answered question's `correctAnswers` (stored `[1, 0]`, left `[0, 1]`) and
the attempt's stored `selectedAnswers` (stored `[2, 1]`, left `[1, 2]`). -/
theorem C5_mutation_counterexample :
    ((calculateScore quizA (attemptA .inProgress [⟨1, [2, 1]⟩])).quizAfter.questions.map
        (fun q => q.correctAnswers)) = [[0], [0, 1]] ∧
    quizA.questions.map (fun q => q.correctAnswers) = [[0], [1, 0]] ∧
    (calculateScore quizA (attemptA .inProgress [⟨1, [2, 1]⟩])).quizAfter ≠ quizA ∧
    ((calculateScore quizA (attemptA .inProgress [⟨1, [2, 1]⟩])).attemptAfter.answers.map
        (fun a => a.selectedAnswers)) = [[1, 2]] ∧
    (attemptA .inProgress [⟨1, [2, 1]⟩]).answers.map (fun a => a.selectedAnswers)
      = [[2, 1]] := by
  refine ⟨rfl, rfl, by decide, rfl, rfl⟩

/-- Claim C7 counterexample: the validator's index guard
(`typeof !== 'number' || answerIndex < 0 || answerIndex >= length`) never
checks integrality, and every JS comparison with `NaN` is false.  Two
candidates whose `correctAnswers` are `[0.5]` and `[NaN]` fail the
claim's rule 6 — those entries are not valid option indices — so the
claim predicts an empty survivor set and a `NoValidQuestions` failure,
yet the code accepts both candidates and returns them as survivors. -/
theorem C7_fractional_index_counterexample :
    specValidCandidateIntIndices ["mcq"] candHalf = false ∧
    specValidCandidateIntIndices ["mcq"] candNaN = false ∧
    validateAndFormatQuestions [candHalf, candNaN] ["mcq"]
      = .ok [{ questionText := some "Q1", questionType := "mcq",
               options := ["a", "b"], correctAnswers := [.num half],
               explanation := "e" },
             { questionText := some "Q2", questionType := "mcq",
               options := ["a", "b"], correctAnswers := [.nan],
               explanation := "e" }] := by
  refine ⟨by decide, by decide, by decide⟩

/-- Claim C7 as amended: the Question Validator returns exactly the
order-preserving subsequence of candidates that satisfy all structural
rules (known type tag, tag permitted, ≥2 options, options non-empty
strings after trimming, options pairwise unique under case-insensitive
trimmed comparison, `correctAnswers` a non-empty sequence of *numbers
each passing the range guard* — for ordinary numbers `0 ≤ n <
optionCount` with no integrality requirement, `NaN` passing vacuously —
and the type-specific cardinality rule), with each survivor's explanation
defaulted to the fixed placeholder when absent or empty; it fails with
`NoValidQuestions` iff that subset is empty. -/
theorem C7_validator_is_declarative_filter (cands : List Candidate) (requested : List String) :
    validateAndFormatQuestions cands requested =
      (if (cands.filter (specValidCandidate requested)).isEmpty
       then .error .noValidQuestions
       else .ok ((cands.filter (specValidCandidate requested)).map specFormatCandidate)) := by
  unfold validateAndFormatQuestions
  have hfm : cands.filterMap (checkCandidate requested)
      = (cands.filter (specValidCandidate requested)).map specFormatCandidate := by
    have hfun : checkCandidate requested = fun c =>
        if specValidCandidate requested c then some (specFormatCandidate c) else none :=
      funext (checkCandidate_eq_spec requested)
    rw [hfun, filterMap_guard_eq]
  rw [hfm]
  cases List.filter (specValidCandidate requested) cands with
  | nil => rfl
  | cons a rest => rfl

/-- Claim C8: the weak-topic extractor never fails.  With an empty
wrong-answer list it returns an empty list without invoking the generator;
with a non-empty list, a generator-call error or unparsable output is
caught and degraded to an empty list instead of propagating. -/
theorem C8_extract_never_fails :
    (∀ llm, extractWeakTopics [] llm = ([], false)) ∧
    (∀ (was : List WrongAnswer) (llm : LLMResult), was ≠ [] → llmFailed llm = true →
      extractWeakTopics was llm = ([], true)) := by
  refine ⟨fun llm => rfl, fun was llm hne hf => ?_⟩
  have hemp : was.isEmpty = false := by
    cases was with
    | nil => exact absurd rfl hne
    | cons a l => rfl
  cases llm with
  | callError => simp [extractWeakTopics, hemp]
  | noContent => simp [llmFailed] at hf
  | unparsable => simp [extractWeakTopics, hemp]
  | parsed topics => simp [llmFailed] at hf

/-- Witness for C8: the empty case makes no call; a concrete non-empty
wrong-answer list degrades to an empty topic list on a call error and on
unparsable output. -/
theorem C8_extract_never_fails_witness :
    extractWeakTopics [] (.parsed (some ["x"])) = ([], false) ∧
    extractWeakTopics [waEx] .callError = ([], true) ∧
    extractWeakTopics [waEx] .unparsable = ([], true) :=
  ⟨C8_extract_never_fails.1 (.parsed (some ["x"])),
   C8_extract_never_fails.2 [waEx] .callError (by simp) rfl,
   C8_extract_never_fails.2 [waEx] .unparsable (by simp) rfl⟩

end Qwizzard
